import Mathlib

/-!
Verification of the TikTok_Archive download core: a shallow embedding of
`src/utils/data_parser.py` (`TikTokDataParser.parse_data_file`),
`src/core/downloader.py` (`TikTokDownloader.download_video`,
`TikTokDownloader._load_downloaded_videos`), `src/utils/file_utils.py`
(`log_message`) and `src/core/config.py` (the clamped `concurrent_downloads`
and `total_rate_limit` properties), together with theorems settling the
specification claims about them.

Python strings are modelled as `String` / `List Char`; the Python string
operations used by the code (`in`, `split`, `strip`, `replace`, `rstrip`,
`startswith`) are given structurally recursive models below so that all
definitions evaluate inside the kernel.
-/

namespace TikTok

/-- Prefix test on character lists (Python's `str.startswith`). -/
def isPfx : List Char → List Char → Bool
  | [], _ => true
  | _ :: _, [] => false
  | a :: as, b :: bs => if a = b then isPfx as bs else false

/-- Byte-for-byte model of Python's `str.find(sep)` restricted to lists of
characters: the index of the first occurrence of `sep` in `s`, if any. -/
def idxOfSep (sep : List Char) : List Char → Option Nat
  | [] => if sep.isEmpty then some 0 else none
  | c :: rest =>
    if isPfx sep (c :: rest) then some 0
    else (idxOfSep sep rest).map (· + 1)

/-- Python's `sep in s` substring test. -/
def pyContains (sep s : List Char) : Bool := (idxOfSep sep s).isSome

/-- Python's `s.split(sep)[1]`: the segment of `s` strictly between the first
and second occurrence of `sep` (the whole suffix after the first occurrence
when there is no second one); `none` when `sep` does not occur (where Python
would raise `IndexError`). -/
def pySplitSecond (sep s : List Char) : Option (List Char) :=
  match idxOfSep sep s with
  | none => none
  | some i =>
    match idxOfSep sep (s.drop (i + sep.length)) with
    | none => some (s.drop (i + sep.length))
    | some j => some ((s.drop (i + sep.length)).take j)

/-- Python's `str.strip()`: remove leading and trailing whitespace. -/
def pyStrip (s : List Char) : List Char :=
  ((s.dropWhile Char.isWhitespace).reverse.dropWhile Char.isWhitespace).reverse

/-- Python's `str.rstrip(":")`: remove trailing colon characters. -/
def pyRstripColon (s : List Char) : List Char :=
  (s.reverse.dropWhile (· = ':')).reverse

/-- Helper for `pySplitWs`: `cur` is the reversed current token. -/
def pySplitWsAux (cur : List Char) : List Char → List (List Char)
  | [] => if cur.isEmpty then [] else [cur.reverse]
  | c :: rest =>
    if c.isWhitespace then
      if cur.isEmpty then pySplitWsAux [] rest
      else cur.reverse :: pySplitWsAux [] rest
    else pySplitWsAux (c :: cur) rest

/-- Python's `str.split()` with no argument: split on runs of whitespace,
discarding empty tokens. -/
def pySplitWs (s : List Char) : List (List Char) := pySplitWsAux [] s

/-- Python's `s.split(sep)` for a single-character separator, keeping empty
segments (used for `url.split('/')`). -/
def pySplitChar (sep : Char) : List Char → List (List Char)
  | [] => [[]]
  | c :: rest =>
    if c = sep then [] :: pySplitChar sep rest
    else
      match pySplitChar sep rest with
      | a :: more => (c :: a) :: more
      | [] => [[c]]

/-- Fuel-driven worker for `pyReplace`; with `fuel ≥ s.length` and a nonempty
pattern the fuel never runs out, so this computes Python's replace-all. -/
def pyReplaceFuel (sep repl : List Char) : Nat → List Char → List Char
  | _, [] => []
  | 0, s => s
  | fuel + 1, c :: rest =>
    if sep ≠ [] ∧ isPfx sep (c :: rest) then
      repl ++ pyReplaceFuel sep repl fuel (rest.drop (sep.length - 1))
    else
      c :: pyReplaceFuel sep repl fuel rest

/-- Python's `s.replace(sep, repl)`: replace every (leftmost-first,
non-overlapping) occurrence of `sep` in `s` by `repl`. -/
def pyReplace (sep repl s : List Char) : List Char :=
  pyReplaceFuel sep repl s.length s

/-- Python's `sep in s` on `String`s. -/
def pyContainsS (sep s : String) : Bool := pyContains sep.data s.data

/-- Python's `s.startswith(p)` on `String`s. -/
def pyStartsWithS (p s : String) : Bool := isPfx p.data s.data

/-! ## The decoded JSON-like data model

`parse_data_file` receives `json.load`'s output: a tree of dicts, lists,
strings, numbers, booleans and `None`. -/

inductive Json where
  | null : Json
  | bool (b : Bool) : Json
  | num (n : Int) : Json
  | str (s : String) : Json
  | arr (elts : List Json) : Json
  | obj (fields : List (String × Json)) : Json

/-- Python truthiness of a decoded JSON value (`if x:`). -/
def Json.truthy : Json → Bool
  | .null => false
  | .bool b => b
  | .num n => n != 0
  | .str s => s ≠ ""
  | .arr elts => ¬elts.isEmpty
  | .obj fields => ¬fields.isEmpty

/-- Lookup of a key in a decoded JSON object's field list (Python dict keys
are unique, so first match is the value). -/
def lookupField : List (String × Json) → String → Option Json
  | [], _ => none
  | (k', v) :: rest, k => if k = k' then some v else lookupField rest k

/-- Python's `k in x` for a decoded value `x`: key membership for dicts,
element membership for lists, substring test for strings; `none` models the
`TypeError` raised on numbers, booleans and `None`. -/
def pyIn (k : String) : Json → Option Bool
  | .obj fields => some (lookupField fields k).isSome
  | .arr elts => some (elts.any (fun e => match e with | .str s => s = k | _ => false))
  | .str s => some (pyContainsS k s)
  | _ => none

/-- Python's `x[k]` for a string key: dict lookup (`none` also models the
`KeyError`/`TypeError` raised on missing keys and non-dicts). -/
def pyGetItem (j : Json) (k : String) : Option Json :=
  match j with
  | .obj fields => lookupField fields k
  | _ => none

/-- Python's `x.get(k, default)`; `none` models the `AttributeError` raised
when `x` is not a dict. -/
def pyGet (j : Json) (k : String) (default : Json) : Option Json :=
  match j with
  | .obj fields => some ((lookupField fields k).getD default)
  | _ => none

/-- Python's `for v in x`: list elements, dict keys, or the characters of a
string; `none` models the `TypeError` on non-iterables. -/
def pyIter : Json → Option (List Json)
  | .arr elts => some elts
  | .obj fields => some (fields.map (fun f => Json.str f.1))
  | .str s => some (s.data.map (fun c => Json.str (String.mk [c])))
  | _ => none

/-- Python's `x.items()`; `none` models the `AttributeError` on non-dicts. -/
def pyItems : Json → Option (List (String × Json)) :=
  fun j => match j with
  | .obj fields => some fields
  | _ => none

/-! ## `TikTokDataParser` (src/utils/data_parser.py)

A `none` result of `parse_data_file` models an uncaught Python exception. -/

/-- The constant `TikTokDataParser.TIKTOK_URL_PATTERN`. -/
def TIKTOK_URL_PATTERN : String := "https://www.tiktokv.com/share/video/"

/-- One row of the `TikTokDataParser.CATEGORIES` table (`section`, `name`,
`list_key`, `folder`, and the category id, which also serves as `count_key`). -/
structure CategorySpec where
  sect : String
  name : String
  list_key : String
  folder : String
  id : String

def likesSpec : CategorySpec :=
  ⟨"Activity", "Like List", "ItemFavoriteList", "Likes", "likes"⟩
def favoritesSpec : CategorySpec :=
  ⟨"Activity", "Favorite Videos", "FavoriteVideoList", "Favorites", "favorites"⟩
def historySpec : CategorySpec :=
  ⟨"Activity", "Video Browsing History", "VideoList", "History", "history"⟩
def sharedSpec : CategorySpec :=
  ⟨"Activity", "Share History", "ShareHistoryList", "Shared", "shared"⟩

/-- The `counts` dictionary built by `parse_data_file`. -/
structure CategoryCounts where
  total_videos : Nat
  likes : Nat
  favorites : Nat
  history : Nat
  shared : Nat
  chat : Nat

/-- One element of the `videos` list: `(url, folder, category_id)`. The url is
kept as a decoded JSON value, exactly as the code appends it. -/
abbrev WorkItem := Json × String × String

/-- The triple returned by `parse_data_file`. -/
structure ParseResult where
  counts : CategoryCounts
  videos : List WorkItem
  username : Option Json

/-- The field-name priority loop of `parse_data_file`:
`for field in ["link", "Link", "shareURL", "ShareURL", "videoURL", "VideoURL"]:
if field in video and video[field]: url = video[field]; break`. -/
def firstUrlField (video : List (String × Json)) : Option Json :=
  ["link", "Link", "shareURL", "ShareURL", "videoURL", "VideoURL"].findSome?
    (fun field =>
      match lookupField video field with
      | some v => if v.truthy then some v else none
      | none => none)

/-- The per-entry body of the regular-category loop: an entry contributes a
`WorkItem` exactly when it is a dict with a usable url field
(`isinstance(video, dict)` and the priority loop). -/
def categoryEntryItem (spec : CategorySpec) (video : Json) : Option WorkItem :=
  match video with
  | .obj fields => (firstUrlField fields).map (fun url => (url, spec.folder, spec.id))
  | _ => none

/-- The regular-category `for video in video_list:` loop: `count` and the
appended items, accumulated in entry order. -/
def processCategoryList (spec : CategorySpec) : List Json → Nat × List WorkItem
  | [] => (0, [])
  | v :: rest =>
    let acc := processCategoryList spec rest
    match categoryEntryItem spec v with
    | some it => (acc.1 + 1, it :: acc.2)
    | none => acc

/-- One iteration of the regular-category loop of `parse_data_file`
(lines 85–104): the section/subsection/list lookups with their Python
exception behaviour, then the entry loop. -/
def processCategory (data : Json) (spec : CategorySpec) : Option (Nat × List WorkItem) := do
  let present ← pyIn spec.sect data
  if present then
    let sectionVal ← pyGetItem data spec.sect
    let category_data ← pyGet sectionVal spec.name (.obj [])
    if category_data.truthy then
      let video_list ← pyGet category_data spec.list_key (.arr [])
      if video_list.truthy then
        let entries ← pyIter video_list
        return processCategoryList spec entries
      else
        return (0, [])
    else
      return (0, [])
  else
    return (0, [])

/-- The normalisation `username_key.replace("Chat History with ", "").rstrip(":")`. -/
def chatUsernameOf (username_key : String) : String :=
  String.mk (pyRstripColon (pyReplace "Chat History with ".data [] username_key.data))

/-- The per-message body of the chat loop: a message contributes a `WorkItem`
exactly when it is a dict whose `Content` is a string containing
`TIKTOK_URL_PATTERN`, the item url being the first whitespace-delimited word
containing the pattern (then `word.strip()`, a no-op on such words). -/
def chatMessageItem (chat_username : String) (message : Json) : Option WorkItem :=
  match message with
  | .obj fields =>
    match lookupField fields "Content" with
    | some content =>
      match content with
      | .str c =>
        if pyContainsS TIKTOK_URL_PATTERN c then
          match (pySplitWs c.data).find? (fun w => pyContains TIKTOK_URL_PATTERN.data w) with
          | some w =>
            some (.str (String.mk (pyStrip w)), "ChatHistory/" ++ chat_username, "chat")
          | none => none
        else none
      | _ => none
    | none => none
  | _ => none

/-- The `for message in messages:` loop for one correspondent. -/
def processMessages (chat_username : String) : List Json → Nat × List WorkItem
  | [] => (0, [])
  | m :: rest =>
    let acc := processMessages chat_username rest
    match chatMessageItem chat_username m with
    | some it => (acc.1 + 1, it :: acc.2)
    | none => acc

/-- One `(username_key, messages)` iteration of the chat-history loop:
the `startswith("Chat History with ")` filter, the username normalisation and
the `isinstance(messages, list)` check. -/
def processChatEntry (username_key : String) (messages : Json) : Nat × List WorkItem :=
  if pyStartsWithS "Chat History with " username_key then
    match messages with
    | .arr ms => processMessages (chatUsernameOf username_key) ms
    | _ => (0, [])
  else (0, [])

/-- The `for username_key, messages in chat_history.items():` loop. -/
def processChatEntries : List (String × Json) → Nat × List WorkItem
  | [] => (0, [])
  | (k, v) :: rest =>
    let here := processChatEntry k v
    let acc := processChatEntries rest
    (here.1 + acc.1, here.2 ++ acc.2)

/-- The chat block of `parse_data_file` (lines 107–137), including the
evaluation order of `chat["section"] in data and chat["name"] in
data[chat["section"]]` and the exception behaviour of each lookup. -/
def processChat (data : Json) : Option (Nat × List WorkItem) := do
  let b1 ← pyIn "Direct Messages" data
  if b1 then
    let dm ← pyGetItem data "Direct Messages"
    let b2 ← pyIn "Chat History" dm
    if b2 then
      let chObj ← pyGetItem dm "Chat History"
      let chat_history ← pyGet chObj "ChatHistory" (.obj [])
      if chat_history.truthy then
        let entries ← pyItems chat_history
        return processChatEntries entries
      else
        return (0, [])
    else
      return (0, [])
  else
    return (0, [])

/-- Model of `TikTokDataParser.extract_username` on a root dict: every raise inside it
is caught (`except Exception: return None`), so it is total; `none` is
Python's `None` (also returned when `userName` maps to JSON null, which
decodes to `None`). -/
def extract_username (fields : List (String × Json)) : Option Json :=
  match lookupField fields "Profile" with
  | none => none
  | some profileSection =>
    match profileSection with
    | .obj pfs =>
      match (lookupField pfs "Profile Information").getD (.obj []) with
      | .obj prfs =>
        match lookupField prfs "ProfileMap" with
        | none => none
        | some pm =>
          match pm with
          | .obj pmfs =>
            match lookupField pmfs "userName" with
            | none => none
            | some .null => none
            | some v => some v
          | _ => none
      | _ => none
    | _ => none

/-- Model of `extract_username` as called on arbitrary decoded data: on a non-dict
root every path either finds no `"Profile"` or raises and is caught. -/
def extract_username_j : Json → Option Json
  | .obj fields => extract_username fields
  | _ => none

/-- Model of `TikTokDataParser.parse_data_file`: username extraction, the four
regular categories in table order, then the chat block; `none` models an
uncaught exception escaping the call. -/
def parse_data_file (data : Json) : Option ParseResult := do
  let username := extract_username_j data
  let likes ← processCategory data likesSpec
  let favorites ← processCategory data favoritesSpec
  let history ← processCategory data historySpec
  let shared ← processCategory data sharedSpec
  let chat ← processChat data
  return { counts := { total_videos := likes.1 + favorites.1 + history.1 + shared.1 + chat.1
                       likes := likes.1
                       favorites := favorites.1
                       history := history.1
                       shared := shared.1
                       chat := chat.1 }
           videos := likes.2 ++ favorites.2 ++ history.2 ++ shared.2 ++ chat.2
           username := username }

/-! ## `log_message` (src/utils/file_utils.py) and the success-log replay -/

/-- Model of `log_message(log_file, message)`: the line appended to the file,
`f"[{timestamp}] {message}\n"`. -/
def log_message (timestamp message : String) : String :=
  "[" ++ timestamp ++ "] " ++ message ++ "\n"

/-- The body of the read loop of `TikTokDownloader._load_downloaded_videos`:
`if "URL:" in line: downloaded.add(line.split("URL:")[1].strip())`. -/
def loadLine (line : String) : Option String :=
  if pyContainsS "URL:" line then
    (pySplitSecond "URL:".data line.data).map (fun seg => String.mk (pyStrip seg))
  else none

/-- Model of `TikTokDownloader._load_downloaded_videos` applied to the lines of the
success log (the set is modelled as the list of added strings). -/
def load_downloaded_videos (lines : List String) : List String :=
  lines.filterMap loadLine

/-! ## `TikTokDownloader.download_video` (src/core/downloader.py)

The downloader's shared state (`_downloaded_videos`, `_active_downloads`,
the two log files and the callback) is passed explicitly; the external
`yt_dlp` fetch is an oracle parameter describing what `YoutubeDL.extract_info`
and the subsequent `os.path.exists` check do for this call.  A call is a pure
state transformer returning the Python return value, the new state and the
number of times the call passed the dispatch guard (0 when skipped, 1 when
the url was added to `_active_downloads` and the fetch block was entered). -/

/-- Outcome of one `ydl.extract_info(u, download=True)` call plus the local
`os.path.exists` verification of the reported file. -/
inductive FetchBehavior where
  | raise (msg : String) : FetchBehavior
  | noInfo : FetchBehavior
  | ok (title vid fname : String) (fexists : Bool) : FetchBehavior

/-- One entry of a profile page's `info['entries']`: the value of
`entry.get('url') or entry.get('webpage_url')` (none when both are
absent/falsy) and the behaviour of the nested per-video download. -/
structure ProfileEntry where
  url : Option String
  fetch : FetchBehavior

/-- Outcome of the flat `ydl.extract_info(url, download=False)` call of the
profile branch. -/
inductive ProfileBehavior where
  | raise (msg : String) : ProfileBehavior
  | noEntries : ProfileBehavior
  | entries (es : List ProfileEntry) : ProfileBehavior

/-- The downloader state touched by `download_video`: the in-memory Ledger
set `_downloaded_videos`, the InFlight set `_active_downloads`, the lines of
the two log files and the callback invocations, in order. -/
structure DLState where
  downloaded : List String
  active : List String
  successLog : List String
  errorLog : List String
  successEvents : List (String × String)
  errorEvents : List (String × String × String)

/-- The message passed to `log_message` for a successful download. -/
def successMessage (url title vid category_path fname : String) : String :=
  "URL: " ++ url ++ " | TITLE: " ++ title ++ " | ID: " ++ vid ++
    " | CATEGORY: " ++ category_path ++ " | FILE: " ++ fname

/-- The expression `url.split('/')[-1] if '/' in url else 'Unknown ID'`. -/
def videoIdOfUrl (url : String) : String :=
  if pyContainsS "/" url then
    String.mk ((pySplitChar '/' url.data).getLastD [])
  else "Unknown ID"

/-- The `except Exception` block of `download_video` (lines 268–280): append
the error line, invoke the failure callback when one is attached, and return
`False`. -/
def exceptPath (cb : Bool) (ts error_msg url category_path : String) (st : DLState) :
    Bool × DLState :=
  let vid := videoIdOfUrl url
  let line := log_message ts
    ("ERROR: " ++ url ++ " | TITLE: Unknown Title | ID: " ++ vid ++
      " | CATEGORY: " ++ category_path ++ " - " ++ error_msg)
  (false,
    { st with
      errorLog := st.errorLog ++ [line]
      errorEvents := if cb then st.errorEvents ++ [("Unknown Title", vid, error_msg)]
                     else st.errorEvents })

/-- The regular (non-profile) download block (lines 243–266): both the falsy
`info` and the missing output file raise in-line and thus run the shared
except block; only the verified success appends the success line, notifies
the callback and adds the url to `_downloaded_videos`. -/
def regularBranch (cb : Bool) (ts : String) (fetch : FetchBehavior)
    (url category_path : String) (st : DLState) : Bool × DLState :=
  match fetch with
  | .raise msg => exceptPath cb ts msg url category_path st
  | .noInfo => exceptPath cb ts "Failed to extract video info" url category_path st
  | .ok title vid fname fexists =>
    if fexists then
      (true,
        { st with
          successLog := st.successLog ++ [log_message ts (successMessage url title vid category_path fname)]
          successEvents := if cb then st.successEvents ++ [(title, vid)] else st.successEvents
          downloaded := url :: st.downloaded })
    else
      exceptPath cb ts "Video file not created after download" url category_path st

/-- The inner `for entry in info['entries']:` loop of the profile branch
(lines 217–239); a nested raise or a missing file flips `success` to `False`
(logged through the diagnostic logger only — no error-log line, no callback),
a falsy nested `info` leaves everything unchanged, and a verified nested
download appends a success line for the entry url without ever touching
`_downloaded_videos`. -/
def profileEntriesLoop (cb : Bool) (ts category_path : String) :
    List ProfileEntry → Bool × DLState → Bool × DLState
  | [], acc => acc
  | e :: rest, acc =>
    let acc' :=
      match e.url with
      | none => acc
      | some u2 =>
        match e.fetch with
        | .raise _ => (false, acc.2)
        | .noInfo => acc
        | .ok title vid fname fexists =>
          if fexists then
            (acc.1,
              { acc.2 with
                successLog := acc.2.successLog ++
                  [log_message ts (successMessage u2 title vid category_path fname)]
                successEvents := if cb then acc.2.successEvents ++ [(title, vid)]
                                 else acc.2.successEvents })
          else (false, acc.2)
    profileEntriesLoop cb ts category_path rest acc'

/-- The profile block (lines 211–241): a raise of the flat extraction runs
the shared except block; a falsy `info` or one without `'entries'` returns
`False` with no logging; otherwise the entries loop decides the result. -/
def profileBranch (cb : Bool) (ts : String) (fetch : ProfileBehavior)
    (url category_path : String) (st : DLState) : Bool × DLState :=
  match fetch with
  | .raise msg => exceptPath cb ts msg url category_path st
  | .noEntries => (false, st)
  | .entries es => profileEntriesLoop cb ts category_path es (true, st)

/-- Model of `TikTokDownloader.download_video(url, folder, category_path)`:
the lock-guarded duplicate and in-flight checks (lines 198–205), the
dispatched fetch, and the unconditional `finally` removal from
`_active_downloads` (lines 282–284).  `folder` only shapes filesystem paths
handed to the fetcher, which the oracle already accounts for. -/
def download_video (cb : Bool) (ts : String) (fetchR : FetchBehavior)
    (fetchP : ProfileBehavior) (url folder category_path : String) (st : DLState) :
    Bool × DLState × Nat :=
  let _ := folder
  if url ∈ st.downloaded then (true, st, 0)
  else if url ∈ st.active then (true, st, 0)
  else
    let st1 := { st with active := url :: st.active }
    let res :=
      if category_path = "profile" then profileBranch cb ts fetchP url category_path st1
      else regularBranch cb ts fetchR url category_path st1
    (res.1, { res.2 with active := res.2.active.erase url }, 1)

/-! ## `Config` clamps and the per-download rate (src/core/config.py,
src/core/downloader.py line 117–118)

The stored `_concurrent_downloads` / `_total_rate_limit` are arbitrary
integers; the properties clamp them.  The division in `get_ydl_opts` is
Python float division of two positive integers, modelled exactly over ℚ. -/

/-- The `concurrent_downloads` property: `max(1, self._concurrent_downloads)`. -/
def concurrent_downloads (stored : Int) : Int := max 1 stored

/-- The `total_rate_limit` property: `max(1024 * 1024, self._total_rate_limit)`. -/
def total_rate_limit (stored : Int) : Int := max (1024 * 1024) stored

/-- The value `per_download_rate = float(self.config.total_rate_limit) /
self.config.concurrent_downloads` as computed in `get_ydl_opts`. -/
def per_download_rate (storedRate storedConc : Int) : ℚ :=
  (total_rate_limit storedRate : ℚ) / (concurrent_downloads storedConc : ℚ)

/-- Scenario A's document: a likes list with two entries. -/
def docA : Json :=
  .obj [("Activity", .obj [("Like List", .obj [("ItemFavoriteList",
    .arr [.obj [("Link", .str "https://x/1")], .obj [("Link", .str "https://x/2")]])])])]

/-- The parse result of `docA`. -/
def rA : ParseResult :=
  ⟨⟨2, 2, 0, 0, 0, 0⟩,
    [(.str "https://x/1", "Likes", "likes"), (.str "https://x/2", "Likes", "likes")], none⟩

/-! ## C1: the success-log round trip -/

/-- The empty downloader state of a fresh run over a fresh output folder. -/
def st0 : DLState := ⟨[], [], [], [], [], []⟩

/-- Run 1: a successful download of `https://x/1` (title `T`, id `1`, file
`1.mp4`, file present on disk) from the empty state. -/
def run1 : Bool × DLState × Nat :=
  download_video true "2024-01-01 00:00:00" (FetchBehavior.ok "T" "1" "1.mp4" true)
    ProfileBehavior.noEntries "https://x/1" "Likes" "likes" st0

/-! ## C6: parser totality -/

/-- Shape conditions under which one regular-category block of
`parse_data_file` cannot raise: the root is a dict, a present section is a
dict, a truthy subsection is a dict, and a truthy video list is iterable
(list, dict or string). -/
def categoryWellShaped (data : Json) (spec : CategorySpec) : Bool :=
  match data with
  | .obj fields =>
    match lookupField fields spec.sect with
    | none => true
    | some sectionVal =>
      match sectionVal with
      | .obj sfs =>
        (match (lookupField sfs spec.name).getD (.obj []) with
         | .obj cfs =>
           (match (lookupField cfs spec.list_key).getD (.arr []) with
            | .arr _ => true
            | .obj _ => true
            | .str _ => true
            | v => !v.truthy)
         | v => !v.truthy)
      | _ => false
  | _ => false

/-- Shape conditions under which the chat block cannot raise. -/
def chatWellShaped (data : Json) : Bool :=
  match data with
  | .obj fields =>
    match lookupField fields "Direct Messages" with
    | none => true
    | some dm =>
      match dm with
      | .obj dmfs =>
        match lookupField dmfs "Chat History" with
        | none => true
        | some ch =>
          match ch with
          | .obj chfs =>
            (match (lookupField chfs "ChatHistory").getD (.obj []) with
             | .obj _ => true
             | v => !v.truthy)
          | _ => false
      | _ => false
  | _ => false

/-- All shape conditions under which `parse_data_file` cannot raise (implies
in particular that the root is a dict). -/
def wellShaped (data : Json) : Bool :=
  categoryWellShaped data likesSpec && categoryWellShaped data favoritesSpec &&
    categoryWellShaped data historySpec && categoryWellShaped data sharedSpec &&
    chatWellShaped data

/-- The amended-claim-side description of the item one chat message yields:
a dict message whose string `Content` yields the first whitespace-delimited
token *containing* the canonical share-url prefix, verbatim, with category
`chat` and the correspondent's folder; any other message yields nothing. -/
def chatItemAmended (name : String) (message : Json) : Option WorkItem :=
  match message with
  | .obj fields =>
    match lookupField fields "Content" with
    | some (.str c) =>
      ((pySplitWs c.data).find? (fun w => pyContains TIKTOK_URL_PATTERN.data w)).map
        (fun w => (.str (String.mk w), "ChatHistory/" ++ name, "chat"))
    | _ => none
  | _ => none

/-- A document whose only content is one chat-history correspondent. -/
def chatDoc (k : String) (msgs : List Json) : Json :=
  .obj [("Direct Messages", .obj [("Chat History", .obj [("ChatHistory",
    .obj [(k, .arr msgs)])])])]

/-! ## C8: URL field priority -/

/-- A document whose only content is one likes list. -/
def likesDoc (entries : List Json) : Json :=
  .obj [("Activity", .obj [("Like List", .obj [("ItemFavoriteList", .arr entries)])])]

/-- The claim's description of URL selection: the value of the first field
among `link, Link, shareURL, ShareURL, videoURL, VideoURL` that is present
with a truthy (for strings: non-empty) value; `none` when the entry is not a
dict or none of the six fields has a truthy value. -/
def urlByPriority (video : Json) : Option Json :=
  match video with
  | .obj fields =>
    [lookupField fields "link", lookupField fields "Link",
     lookupField fields "shareURL", lookupField fields "ShareURL",
     lookupField fields "videoURL", lookupField fields "VideoURL"].findSome?
      (fun o => o.bind (fun v => if v.truthy then some v else none))
  | _ => none

/-! ## Helper lemmas: counts stay in lockstep with the item lists -/

theorem processCategoryList_count (spec : CategorySpec) (l : List Json) :
    (processCategoryList spec l).1 = (processCategoryList spec l).2.length := by
  induction l with
  | nil => rfl
  | cons v rest ih =>
    simp only [processCategoryList]
    cases h : categoryEntryItem spec v <;> simp [h, ih]

theorem processCategory_shape (data : Json) (spec : CategorySpec)
    (p : Nat × List WorkItem) (h : processCategory data spec = some p) :
    p = (0, []) ∨ ∃ entries, p = processCategoryList spec entries := by
  unfold processCategory at h
  obtain ⟨present, hpr, h⟩ := Option.bind_eq_some.mp h
  by_cases hp : present = true
  · rw [if_pos hp] at h
    obtain ⟨sv, hsv, h⟩ := Option.bind_eq_some.mp h
    obtain ⟨cd, hcd, h⟩ := Option.bind_eq_some.mp h
    by_cases ht : cd.truthy = true
    · rw [if_pos ht] at h
      obtain ⟨vl, hvl, h⟩ := Option.bind_eq_some.mp h
      by_cases hvt : vl.truthy = true
      · rw [if_pos hvt] at h
        obtain ⟨es, hes, h⟩ := Option.bind_eq_some.mp h
        simp only [Option.pure_def, Option.some.injEq] at h
        exact Or.inr ⟨es, h.symm⟩
      · rw [if_neg hvt] at h
        simp only [Option.pure_def, Option.some.injEq] at h
        exact Or.inl h.symm
    · rw [if_neg ht] at h
      simp only [Option.pure_def, Option.some.injEq] at h
      exact Or.inl h.symm
  · rw [if_neg hp] at h
    simp only [Option.pure_def, Option.some.injEq] at h
    exact Or.inl h.symm

theorem processCategory_count (data : Json) (spec : CategorySpec)
    (p : Nat × List WorkItem) (h : processCategory data spec = some p) :
    p.1 = p.2.length := by
  rcases processCategory_shape data spec p h with h' | ⟨entries, h'⟩
  · subst h'; rfl
  · subst h'; exact processCategoryList_count spec entries

theorem processMessages_count (name : String) (l : List Json) :
    (processMessages name l).1 = (processMessages name l).2.length := by
  induction l with
  | nil => rfl
  | cons m rest ih =>
    simp only [processMessages]
    cases h : chatMessageItem name m <;> simp [h, ih]

theorem processChatEntry_count (k : String) (v : Json) :
    (processChatEntry k v).1 = (processChatEntry k v).2.length := by
  unfold processChatEntry
  by_cases h : pyStartsWithS "Chat History with " k = true
  · simp only [if_pos h]
    cases v <;> first
      | rfl
      | exact processMessages_count _ _
  · simp [h]

theorem processChatEntries_count (l : List (String × Json)) :
    (processChatEntries l).1 = (processChatEntries l).2.length := by
  induction l with
  | nil => rfl
  | cons kv rest ih =>
    obtain ⟨k, v⟩ := kv
    simp [processChatEntries, processChatEntry_count k v, ih]

theorem processChat_count (data : Json) (p : Nat × List WorkItem)
    (h : processChat data = some p) : p.1 = p.2.length := by
  unfold processChat at h
  obtain ⟨b1, hb1, h⟩ := Option.bind_eq_some.mp h
  by_cases h1 : b1 = true
  · rw [if_pos h1] at h
    obtain ⟨dm, hdm, h⟩ := Option.bind_eq_some.mp h
    obtain ⟨b2, hb2, h⟩ := Option.bind_eq_some.mp h
    by_cases h2 : b2 = true
    · rw [if_pos h2] at h
      obtain ⟨ch, hch, h⟩ := Option.bind_eq_some.mp h
      obtain ⟨chist, hchist, h⟩ := Option.bind_eq_some.mp h
      by_cases ht : chist.truthy = true
      · rw [if_pos ht] at h
        obtain ⟨es, hes, h⟩ := Option.bind_eq_some.mp h
        simp only [Option.pure_def, Option.some.injEq] at h
        subst h; exact processChatEntries_count es
      · rw [if_neg ht] at h
        simp only [Option.pure_def, Option.some.injEq] at h
        subst h; rfl
    · rw [if_neg h2] at h
      simp only [Option.pure_def, Option.some.injEq] at h
      subst h; rfl
  · rw [if_neg h1] at h
    simp only [Option.pure_def, Option.some.injEq] at h
    subst h; rfl

/-- C3: for every input document on which `parse_data_file` returns, the
returned counts satisfy `total_videos = likes + favorites + history + shared
+ chat`, and `total_videos` equals the length of the returned video list;
entries dropped for lacking a usable URL contribute to neither. -/
theorem count_consistency (data : Json) (r : ParseResult)
    (h : parse_data_file data = some r) :
    r.counts.total_videos =
        r.counts.likes + r.counts.favorites + r.counts.history + r.counts.shared +
          r.counts.chat ∧
      r.counts.total_videos = r.videos.length := by
  unfold parse_data_file at h
  obtain ⟨pl, hl, h⟩ := Option.bind_eq_some.mp h
  obtain ⟨pf, hf, h⟩ := Option.bind_eq_some.mp h
  obtain ⟨ph, hh, h⟩ := Option.bind_eq_some.mp h
  obtain ⟨ps, hs, h⟩ := Option.bind_eq_some.mp h
  obtain ⟨pc, hc, h⟩ := Option.bind_eq_some.mp h
  simp only [pure, Option.some.injEq] at h
  subst h
  refine ⟨rfl, ?_⟩
  have e1 := processCategory_count data likesSpec pl hl
  have e2 := processCategory_count data favoritesSpec pf hf
  have e3 := processCategory_count data historySpec ph hh
  have e4 := processCategory_count data sharedSpec ps hs
  have e5 := processChat_count data pc hc
  simp only [List.length_append]
  omega

theorem count_consistency_witness :
    rA.counts.total_videos =
        rA.counts.likes + rA.counts.favorites + rA.counts.history + rA.counts.shared +
          rA.counts.chat ∧
      rA.counts.total_videos = rA.videos.length :=
  count_consistency docA rA rfl

/-! ## Helper lemmas about `download_video`'s state handling -/

theorem regularBranch_active (cb : Bool) (ts : String) (f : FetchBehavior)
    (url cat : String) (st : DLState) :
    (regularBranch cb ts f url cat st).2.active = st.active := by
  cases f with
  | raise m => rfl
  | noInfo => rfl
  | ok t v fn fe => cases fe <;> rfl

theorem profileEntriesLoop_downloaded (cb : Bool) (ts cat : String)
    (es : List ProfileEntry) :
    ∀ acc : Bool × DLState,
      (profileEntriesLoop cb ts cat es acc).2.downloaded = acc.2.downloaded := by
  induction es with
  | nil => intro _; rfl
  | cons e rest ih =>
    intro acc
    simp only [profileEntriesLoop]
    rcases e with ⟨u, f⟩
    cases u with
    | none => exact ih acc
    | some u2 =>
      cases f with
      | raise m => exact ih _
      | noInfo => exact ih acc
      | ok t v fn fe => cases fe <;> exact ih _

theorem profileEntriesLoop_active (cb : Bool) (ts cat : String)
    (es : List ProfileEntry) :
    ∀ acc : Bool × DLState,
      (profileEntriesLoop cb ts cat es acc).2.active = acc.2.active := by
  induction es with
  | nil => intro _; rfl
  | cons e rest ih =>
    intro acc
    simp only [profileEntriesLoop]
    rcases e with ⟨u, f⟩
    cases u with
    | none => exact ih acc
    | some u2 =>
      cases f with
      | raise m => exact ih _
      | noInfo => exact ih acc
      | ok t v fn fe => cases fe <;> exact ih _

theorem profileBranch_downloaded (cb : Bool) (ts : String) (f : ProfileBehavior)
    (url cat : String) (st : DLState) :
    (profileBranch cb ts f url cat st).2.downloaded = st.downloaded := by
  cases f with
  | raise m => rfl
  | noEntries => rfl
  | entries es => exact profileEntriesLoop_downloaded cb ts cat es (true, st)

theorem profileBranch_active (cb : Bool) (ts : String) (f : ProfileBehavior)
    (url cat : String) (st : DLState) :
    (profileBranch cb ts f url cat st).2.active = st.active := by
  cases f with
  | raise m => rfl
  | noEntries => rfl
  | entries es => exact profileEntriesLoop_active cb ts cat es (true, st)

/-! ## Substring-containment lemmas for the log lines -/

theorem isPfx_self_append (pat y : List Char) : isPfx pat (pat ++ y) = true := by
  induction pat with
  | nil => simp [isPfx]
  | cons c rest ih => simp [isPfx, ih]

theorem pyContains_cons (pat : List Char) (c : Char) (rest : List Char) :
    pyContains pat (c :: rest) = (isPfx pat (c :: rest) || pyContains pat rest) := by
  unfold pyContains
  rw [idxOfSep]
  by_cases hp : isPfx pat (c :: rest) = true
  · rw [if_pos hp, hp]; rfl
  · rw [if_neg hp]
    rw [Bool.eq_false_iff.mpr hp]
    cases hx : idxOfSep pat rest <;> simp [hx]

theorem pyContains_append (pat x y : List Char) : pyContains pat (x ++ pat ++ y) = true := by
  induction x with
  | nil =>
    simp only [List.nil_append]
    cases pat with
    | nil => cases y <;> simp [pyContains, idxOfSep, isPfx]
    | cons p pr =>
      rw [show (p :: pr) ++ y = p :: (pr ++ y) from rfl, pyContains_cons]
      rw [show p :: (pr ++ y) = (p :: pr) ++ y from rfl, isPfx_self_append]
      rfl
  | cons a x' ih =>
    simp only [List.cons_append]
    rw [pyContains_cons, ih]
    simp

theorem pyContains_mem (u s : String) (x y : List Char) (h : s.data = x ++ u.data ++ y) :
    pyContainsS u s = true := by
  unfold pyContainsS
  rw [h]
  exact pyContains_append u.data x y

theorem errorLine_contains_url (ts url cat msg : String) :
    pyContainsS url (log_message ts
      ("ERROR: " ++ url ++ " | TITLE: Unknown Title | ID: " ++ videoIdOfUrl url ++
        " | CATEGORY: " ++ cat ++ " - " ++ msg)) = true := by
  apply pyContains_mem url _ ("[".data ++ ts.data ++ "] ".data ++ "ERROR: ".data)
    (" | TITLE: Unknown Title | ID: ".data ++ (videoIdOfUrl url).data ++
      " | CATEGORY: ".data ++ cat.data ++ " - ".data ++ msg.data ++ "\n".data)
  simp [log_message, String.data_append, List.append_assoc]

/-! ## The claims about `download_video` -/

/-- C2: for every downloader state, a `download_video(u, folder, category)`
call on a url already in the Ledger set dispatches nothing, changes nothing
and returns `True`; a call on a url in neither the Ledger nor the InFlight
set passes the dispatch guard exactly once. -/
theorem dedup_invariant (cb : Bool) (ts : String) (fetchR : FetchBehavior)
    (fetchP : ProfileBehavior) (url folder category_path : String) (st : DLState) :
    (url ∈ st.downloaded →
        download_video cb ts fetchR fetchP url folder category_path st = (true, st, 0)) ∧
      (url ∉ st.downloaded → url ∉ st.active →
        (download_video cb ts fetchR fetchP url folder category_path st).2.2 = 1) := by
  constructor
  · intro h
    simp only [download_video, if_pos h]
  · intro h1 h2
    simp only [download_video, if_neg h1, if_neg h2]

theorem dedup_invariant_witness :
    (download_video true "ts" FetchBehavior.noInfo ProfileBehavior.noEntries
        "u" "f" "likes" ⟨["u"], [], [], [], [], []⟩ =
      (true, ⟨["u"], [], [], [], [], []⟩, 0)) ∧
    (download_video true "ts" FetchBehavior.noInfo ProfileBehavior.noEntries
        "u" "f" "likes" ⟨[], [], [], [], [], []⟩).2.2 = 1 :=
  ⟨(dedup_invariant true "ts" FetchBehavior.noInfo ProfileBehavior.noEntries
      "u" "f" "likes" ⟨["u"], [], [], [], [], []⟩).1 (by decide),
   (dedup_invariant true "ts" FetchBehavior.noInfo ProfileBehavior.noEntries
      "u" "f" "likes" ⟨[], [], [], [], [], []⟩).2 (by decide) (by decide)⟩

/-- C10: a call on a url currently in the InFlight set returns `True` without
dispatching and without changing any state, the same return value a call on
an already-completed url produces, so the two cases are indistinguishable to
the caller by return value. -/
theorem skip_inflight_counted_success (cb : Bool) (ts : String)
    (fetchR : FetchBehavior) (fetchP : ProfileBehavior)
    (url folder category_path : String) (st : DLState) (h : url ∈ st.active) :
    download_video cb ts fetchR fetchP url folder category_path st = (true, st, 0) ∧
      ∀ st' : DLState, url ∈ st'.downloaded →
        download_video cb ts fetchR fetchP url folder category_path st' =
          (true, st', 0) := by
  constructor
  · by_cases h1 : url ∈ st.downloaded
    · simp only [download_video, if_pos h1]
    · simp only [download_video, if_neg h1, if_pos h]
  · intro st' h'
    simp only [download_video, if_pos h']

theorem skip_inflight_counted_success_witness :
    download_video true "ts" FetchBehavior.noInfo ProfileBehavior.noEntries
        "u" "f" "likes" ⟨[], ["u"], [], [], [], []⟩ =
      (true, ⟨[], ["u"], [], [], [], []⟩, 0) :=
  (skip_inflight_counted_success true "ts" FetchBehavior.noInfo
    ProfileBehavior.noEntries "u" "f" "likes" ⟨[], ["u"], [], [], [], []⟩ (by decide)).1

/-- C4: a url is in the Ledger set after a `download_video` call iff it was
there before, or it is the dispatched url, the call took the regular
(non-profile) branch, and the external fetch returned info for a reported
output file that exists on disk; every raising, info-less or unverified
fetch leaves the Ledger unchanged. -/
theorem write_after_verify (cb : Bool) (ts : String) (fetchR : FetchBehavior)
    (fetchP : ProfileBehavior) (url folder category_path : String) (st : DLState) :
    ∀ u : String,
      u ∈ (download_video cb ts fetchR fetchP url folder category_path st).2.1.downloaded ↔
        (u ∈ st.downloaded ∨
          (u = url ∧ url ∉ st.downloaded ∧ url ∉ st.active ∧ category_path ≠ "profile" ∧
            ∃ title vid fname, fetchR = FetchBehavior.ok title vid fname true)) := by
  intro u
  by_cases h1 : url ∈ st.downloaded
  · simp only [download_video, if_pos h1]
    constructor
    · exact fun h => Or.inl h
    · rintro (h | ⟨_, hc, _⟩)
      · exact h
      · exact absurd h1 hc
  · by_cases h2 : url ∈ st.active
    · simp only [download_video, if_neg h1, if_pos h2]
      constructor
      · exact fun h => Or.inl h
      · rintro (h | ⟨_, _, hc, _⟩)
        · exact h
        · exact absurd h2 hc
    · by_cases hc : category_path = "profile"
      · simp only [download_video, if_neg h1, if_neg h2, if_pos hc]
        rw [profileBranch_downloaded]
        constructor
        · exact fun h => Or.inl h
        · rintro (h | ⟨_, _, _, hcp, _⟩)
          · exact h
          · exact absurd hc hcp
      · simp only [download_video, if_neg h1, if_neg h2, if_neg hc]
        cases fetchR with
        | raise m =>
          simp only [regularBranch, exceptPath]
          constructor
          · exact fun h => Or.inl h
          · rintro (h | ⟨_, _, _, _, t, v, f, hk⟩)
            · exact h
            · exact absurd hk (by simp)
        | noInfo =>
          simp only [regularBranch, exceptPath]
          constructor
          · exact fun h => Or.inl h
          · rintro (h | ⟨_, _, _, _, t, v, f, hk⟩)
            · exact h
            · exact absurd hk (by simp)
        | ok t v f fe =>
          cases fe with
          | false =>
            simp only [regularBranch, exceptPath]
            constructor
            · exact fun h => Or.inl h
            · rintro (h | ⟨_, _, _, _, t', v', f', hk⟩)
              · exact h
              · exact absurd hk (by simp)
          | true =>
            simp only [regularBranch]
            constructor
            · intro h
              rcases List.mem_cons.mp h with h | h
              · exact Or.inr ⟨h, h1, h2, hc, t, v, f, rfl⟩
              · exact Or.inl h
            · rintro (h | ⟨he, _, _, _, _⟩)
              · exact List.mem_cons_of_mem _ h
              · exact he ▸ List.mem_cons_self _ _

/-- C5: for a dispatched item whose fetch raises, returns no info, or whose
reported output file is missing, `download_video` returns `False`, appends
exactly one error-log line containing the url, leaves the Ledger unchanged
and invokes the failure callback when one is attached; and for every
behaviour whatsoever the dispatched url is no longer in the InFlight set
when the call returns. -/
theorem failure_path_and_release (cb : Bool) (ts : String) (fetchR : FetchBehavior)
    (fetchP : ProfileBehavior) (url folder category_path : String) (st : DLState)
    (hd : url ∉ st.downloaded) (ha : url ∉ st.active)
    (hfail : (category_path ≠ "profile" ∧
        ((∃ m, fetchR = FetchBehavior.raise m) ∨ fetchR = FetchBehavior.noInfo ∨
          ∃ t v f, fetchR = FetchBehavior.ok t v f false)) ∨
      (category_path = "profile" ∧ ∃ m, fetchP = ProfileBehavior.raise m)) :
    (download_video cb ts fetchR fetchP url folder category_path st).1 = false ∧
    (∃ line,
      (download_video cb ts fetchR fetchP url folder category_path st).2.1.errorLog =
          st.errorLog ++ [line] ∧
        pyContainsS url line = true) ∧
    (download_video cb ts fetchR fetchP url folder category_path st).2.1.downloaded =
        st.downloaded ∧
    (cb = true →
      (download_video cb ts fetchR fetchP url folder category_path st).2.1.errorEvents.length =
        st.errorEvents.length + 1) ∧
    (∀ (fR : FetchBehavior) (fP : ProfileBehavior),
      url ∉ (download_video cb ts fR fP url folder category_path st).2.1.active) := by
  have hrelease : ∀ (fR : FetchBehavior) (fP : ProfileBehavior),
      url ∉ (download_video cb ts fR fP url folder category_path st).2.1.active := by
    intro fR fP
    simp only [download_video, if_neg hd, if_neg ha]
    by_cases hc : category_path = "profile"
    · rw [if_pos hc, profileBranch_active]
      simp only [List.erase_cons_head]
      exact ha
    · rw [if_neg hc, regularBranch_active]
      simp only [List.erase_cons_head]
      exact ha
  rcases hfail with ⟨hc, hf⟩ | ⟨hc, m, hf⟩
  · have key : ∃ msg, (if category_path = "profile" then
          profileBranch cb ts fetchP url category_path { st with active := url :: st.active }
        else regularBranch cb ts fetchR url category_path { st with active := url :: st.active }) =
        exceptPath cb ts msg url category_path { st with active := url :: st.active } := by
      rw [if_neg hc]
      rcases hf with ⟨m, hf⟩ | hf | ⟨t, v, f, hf⟩
      · exact ⟨m, by subst hf; rfl⟩
      · exact ⟨"Failed to extract video info", by subst hf; rfl⟩
      · exact ⟨"Video file not created after download", by subst hf; rfl⟩
    obtain ⟨msg, hkey⟩ := key
    have hres : download_video cb ts fetchR fetchP url folder category_path st =
        (false,
          { downloaded := st.downloaded, active := st.active,
            successLog := st.successLog,
            errorLog := st.errorLog ++
              [log_message ts ("ERROR: " ++ url ++ " | TITLE: Unknown Title | ID: " ++
                videoIdOfUrl url ++ " | CATEGORY: " ++ category_path ++ " - " ++ msg)],
            successEvents := st.successEvents,
            errorEvents := if cb then
                st.errorEvents ++ [("Unknown Title", videoIdOfUrl url, msg)]
              else st.errorEvents }, 1) := by
      simp only [download_video, if_neg hd, if_neg ha, hkey, exceptPath,
        List.erase_cons_head]
    rw [hres]
    refine ⟨rfl,
      ⟨log_message ts ("ERROR: " ++ url ++ " | TITLE: Unknown Title | ID: " ++
          videoIdOfUrl url ++ " | CATEGORY: " ++ category_path ++ " - " ++ msg), rfl,
        errorLine_contains_url ts url category_path msg⟩, rfl, ?_, hrelease⟩
    intro hcb
    simp [hcb]
  · have hkey : (if category_path = "profile" then
          profileBranch cb ts fetchP url category_path { st with active := url :: st.active }
        else regularBranch cb ts fetchR url category_path { st with active := url :: st.active }) =
        exceptPath cb ts m url category_path { st with active := url :: st.active } := by
      subst hf
      rw [if_pos hc]
      rfl
    have hres : download_video cb ts fetchR fetchP url folder category_path st =
        (false,
          { downloaded := st.downloaded, active := st.active,
            successLog := st.successLog,
            errorLog := st.errorLog ++
              [log_message ts ("ERROR: " ++ url ++ " | TITLE: Unknown Title | ID: " ++
                videoIdOfUrl url ++ " | CATEGORY: " ++ category_path ++ " - " ++ m)],
            successEvents := st.successEvents,
            errorEvents := if cb then
                st.errorEvents ++ [("Unknown Title", videoIdOfUrl url, m)]
              else st.errorEvents }, 1) := by
      simp only [download_video, if_neg hd, if_neg ha, hkey, exceptPath,
        List.erase_cons_head]
    rw [hres]
    refine ⟨rfl,
      ⟨log_message ts ("ERROR: " ++ url ++ " | TITLE: Unknown Title | ID: " ++
          videoIdOfUrl url ++ " | CATEGORY: " ++ category_path ++ " - " ++ m), rfl,
        errorLine_contains_url ts url category_path m⟩, rfl, ?_, hrelease⟩
    intro hcb
    simp [hcb]

theorem failure_path_and_release_witness :
    (download_video true "ts" (FetchBehavior.raise "boom") ProfileBehavior.noEntries
        "https://x/1" "f" "likes" ⟨[], [], [], [], [], []⟩).1 = false ∧
    (∃ line,
      (download_video true "ts" (FetchBehavior.raise "boom") ProfileBehavior.noEntries
          "https://x/1" "f" "likes" ⟨[], [], [], [], [], []⟩).2.1.errorLog = [] ++ [line] ∧
        pyContainsS "https://x/1" line = true) ∧
    (download_video true "ts" (FetchBehavior.raise "boom") ProfileBehavior.noEntries
        "https://x/1" "f" "likes" ⟨[], [], [], [], [], []⟩).2.1.downloaded =
      ([] : List String) ∧
    (true = true →
      (download_video true "ts" (FetchBehavior.raise "boom") ProfileBehavior.noEntries
          "https://x/1" "f" "likes" ⟨[], [], [], [], [], []⟩).2.1.errorEvents.length =
        ([] : List (String × String × String)).length + 1) ∧
    (∀ (fR : FetchBehavior) (fP : ProfileBehavior),
      "https://x/1" ∉ (download_video true "ts" fR fP
        "https://x/1" "f" "likes" ⟨[], [], [], [], [], []⟩).2.1.active) :=
  failure_path_and_release true "ts" (FetchBehavior.raise "boom") ProfileBehavior.noEntries
    "https://x/1" "f" "likes" ⟨[], [], [], [], [], []⟩ (by decide) (by decide)
    (Or.inl ⟨by decide, Or.inl ⟨"boom", rfl⟩⟩)

/-- C1 fails on the code: the success line is written as
`[ts] URL: u | TITLE: … | FILE: …`, but `_load_downloaded_videos` adds
`line.split("URL:")[1].strip()` — the url *together with every following
field* — so the reconstructed set does not contain the url and a second run
dispatches the already-downloaded item again instead of skipping it. -/
theorem ledger_roundtrip_failure :
    run1.1 = true ∧
    run1.2.1.successLog =
      ["[2024-01-01 00:00:00] URL: https://x/1 | TITLE: T | ID: 1 | CATEGORY: likes | FILE: 1.mp4\n"] ∧
    load_downloaded_videos run1.2.1.successLog =
      ["https://x/1 | TITLE: T | ID: 1 | CATEGORY: likes | FILE: 1.mp4"] ∧
    "https://x/1" ∉ load_downloaded_videos run1.2.1.successLog ∧
    (download_video true "2024-01-02 00:00:00" (FetchBehavior.ok "T" "1" "1.mp4" true)
        ProfileBehavior.noEntries "https://x/1" "Likes" "likes"
        { st0 with downloaded := load_downloaded_videos run1.2.1.successLog }).2.2 = 1 :=
  ⟨rfl, rfl, rfl, by decide, rfl⟩

/-! ## C9: the rate derivation -/

/-- C9's universally-quantified part holds, amended in its floor clause: the
per-worker rate equals the clamped total rate divided by the concurrency
clamped to a minimum of 1, is monotonically non-increasing in the stored
concurrency, and is bounded below by the configured 1 MiB/s floor *divided by
the clamped concurrency* — not by the floor itself, which only bounds the
total rate before division. -/
theorem rate_derivation_amended (tr c c1 c2 : Int) (h : c1 ≤ c2) :
    per_download_rate tr c = (total_rate_limit tr : ℚ) / ((max 1 c : Int) : ℚ) ∧
      per_download_rate tr c2 ≤ per_download_rate tr c1 ∧
      ((1024 * 1024 : ℚ) ≤ (total_rate_limit tr : ℚ) ∧
        (1024 * 1024 : ℚ) / ((concurrent_downloads c : Int) : ℚ) ≤ per_download_rate tr c) := by
  have hfloor : (1024 * 1024 : ℚ) ≤ (total_rate_limit tr : ℚ) := by
    unfold total_rate_limit
    have : (1024 * 1024 : Int) ≤ max (1024 * 1024) tr := le_max_left _ _
    exact_mod_cast this
  have hpos : ∀ d : Int, (0 : ℚ) < ((max 1 d : Int) : ℚ) := by
    intro d
    have h1 : (0 : Int) < max 1 d := lt_of_lt_of_le one_pos (le_max_left _ _)
    exact_mod_cast h1
  refine ⟨rfl, ?_, hfloor, ?_⟩
  · unfold per_download_rate concurrent_downloads
    apply div_le_div_of_nonneg_left
    · exact le_trans (by norm_num) hfloor
    · exact hpos c1
    · exact_mod_cast max_le_max (le_refl (1 : Int)) h
  · unfold per_download_rate concurrent_downloads
    exact (div_le_div_iff_of_pos_right (hpos c)).mpr hfloor

theorem rate_derivation_amended_witness :
    per_download_rate 0 3 = (total_rate_limit 0 : ℚ) / ((max 1 3 : Int) : ℚ) ∧
      per_download_rate 0 2 ≤ per_download_rate 0 1 ∧
      ((1024 * 1024 : ℚ) ≤ (total_rate_limit 0 : ℚ) ∧
        (1024 * 1024 : ℚ) / ((concurrent_downloads 3 : Int) : ℚ) ≤ per_download_rate 0 3) :=
  rate_derivation_amended 0 3 1 2 (by norm_num)

/-- C9's floor clause fails on the code: with the stored total rate at the
1 MiB/s floor and concurrency 2, the derived per-worker rate is 512 KiB/s,
strictly below the configured floor. -/
theorem rate_floor_counterexample :
    per_download_rate (1024 * 1024) 2 = 524288 ∧
      per_download_rate (1024 * 1024) 2 < 1024 * 1024 ∧
      total_rate_limit (1024 * 1024) = 1024 * 1024 := by
  norm_num [per_download_rate, total_rate_limit, concurrent_downloads]

theorem processCategory_isSome (data : Json) (spec : CategorySpec)
    (h : categoryWellShaped data spec = true) :
    (processCategory data spec).isSome = true := by
  cases data with
  | null => simp [categoryWellShaped] at h
  | bool b => simp [categoryWellShaped] at h
  | num n => simp [categoryWellShaped] at h
  | str s => simp [categoryWellShaped] at h
  | arr elts => simp [categoryWellShaped] at h
  | obj fields =>
    simp only [categoryWellShaped] at h
    cases hsec : lookupField fields spec.sect with
    | none => simp [processCategory, pyIn, hsec]
    | some sectionVal =>
      rw [hsec] at h
      cases sectionVal with
      | null => simp at h
      | bool b => simp at h
      | num n => simp at h
      | str s => simp at h
      | arr elts => simp at h
      | obj sfs =>
        simp only at h
        by_cases ht : ((lookupField sfs spec.name).getD (.obj [])).truthy = true
        · cases hcd : (lookupField sfs spec.name).getD (.obj []) with
          | obj cfs =>
            rw [hcd] at h ht
            simp only at h
            by_cases hvt : ((lookupField cfs spec.list_key).getD (.arr [])).truthy = true
            · cases hvl : (lookupField cfs spec.list_key).getD (.arr []) with
              | arr es =>
                rw [hvl] at hvt
                simp [processCategory, pyIn, pyGetItem, pyGet, pyIter, hsec, hcd, hvl, ht, hvt]
              | obj ofs =>
                rw [hvl] at hvt
                simp [processCategory, pyIn, pyGetItem, pyGet, pyIter, hsec, hcd, hvl, ht, hvt]
              | str s =>
                rw [hvl] at hvt
                simp [processCategory, pyIn, pyGetItem, pyGet, pyIter, hsec, hcd, hvl, ht, hvt]
              | null => rw [hvl] at hvt; simp [Json.truthy] at hvt
              | bool b => rw [hvl] at h hvt; simp [hvt] at h
              | num n => rw [hvl] at h hvt; simp [hvt] at h
            · simp [processCategory, pyIn, pyGetItem, pyGet, hsec, hcd, ht, hvt]
          | null => rw [hcd] at ht; simp [Json.truthy] at ht
          | bool b => rw [hcd] at h ht; simp [ht] at h
          | num n => rw [hcd] at h ht; simp [ht] at h
          | str s => rw [hcd] at h ht; simp [ht] at h
          | arr elts => rw [hcd] at h ht; simp [ht] at h
        · simp [processCategory, pyIn, pyGetItem, pyGet, hsec, ht]

theorem processChat_isSome (data : Json) (h : chatWellShaped data = true) :
    (processChat data).isSome = true := by
  cases data with
  | null => simp [chatWellShaped] at h
  | bool b => simp [chatWellShaped] at h
  | num n => simp [chatWellShaped] at h
  | str s => simp [chatWellShaped] at h
  | arr elts => simp [chatWellShaped] at h
  | obj fields =>
    simp only [chatWellShaped] at h
    cases hdm : lookupField fields "Direct Messages" with
    | none => simp [processChat, pyIn, hdm]
    | some dm =>
      rw [hdm] at h
      cases dm with
      | null => simp at h
      | bool b => simp at h
      | num n => simp at h
      | str s => simp at h
      | arr elts => simp at h
      | obj dmfs =>
        simp only at h
        cases hch : lookupField dmfs "Chat History" with
        | none => simp [processChat, pyIn, pyGetItem, hdm, hch]
        | some ch =>
          rw [hch] at h
          cases ch with
          | null => simp at h
          | bool b => simp at h
          | num n => simp at h
          | str s => simp at h
          | arr elts => simp at h
          | obj chfs =>
            simp only at h
            by_cases ht : ((lookupField chfs "ChatHistory").getD (.obj [])).truthy = true
            · cases hhist : (lookupField chfs "ChatHistory").getD (.obj []) with
              | obj hfs =>
                rw [hhist] at ht
                simp [processChat, pyIn, pyGetItem, pyGet, pyItems, hdm, hch, hhist, ht]
              | null => rw [hhist] at ht; simp [Json.truthy] at ht
              | bool b => rw [hhist] at h ht; simp [ht] at h
              | num n => rw [hhist] at h ht; simp [ht] at h
              | str s => rw [hhist] at h ht; simp [ht] at h
              | arr elts => rw [hhist] at h ht; simp [ht] at h
            · simp [processChat, pyIn, pyGetItem, pyGet, hdm, hch, ht]

/-- C6 fails on the code: on the object-rooted document `{"Activity": 5}`
the parser evaluates `data["Activity"].get("Like List", {})`, which raises
`AttributeError` (modelled by `none`) instead of treating the mistyped
section as zero items. -/
theorem parser_totality_counterexample :
    parse_data_file (.obj [("Activity", .num 5)]) = none := rfl

/-- C6 amended: `parse_data_file` returns without raising on every
object-rooted document in which each present section/subsection the code
calls dict operations on is itself a dict and each truthy video list is
iterable; and absent top-level sections produce zero counts and no items,
not errors. -/
theorem parser_totality_amended (fields : List (String × Json))
    (h : wellShaped (.obj fields) = true) :
    (parse_data_file (.obj fields)).isSome = true ∧
      (lookupField fields "Activity" = none → lookupField fields "Direct Messages" = none →
        parse_data_file (.obj fields) =
          some ⟨⟨0, 0, 0, 0, 0, 0⟩, [], extract_username fields⟩) := by
  have h5 : chatWellShaped (.obj fields) = true := by
    unfold wellShaped at h
    exact (Bool.and_eq_true _ _ |>.mp h).2
  have h14 := (Bool.and_eq_true _ _ |>.mp h).1
  have h4 : categoryWellShaped (.obj fields) sharedSpec = true := by
    unfold wellShaped at h
    simp only [Bool.and_eq_true] at h
    exact h.1.2
  constructor
  · obtain ⟨pl, hl⟩ := Option.isSome_iff_exists.mp (processCategory_isSome _ likesSpec (by
      unfold wellShaped at h; simp only [Bool.and_eq_true] at h; exact h.1.1.1.1))
    obtain ⟨pf, hf⟩ := Option.isSome_iff_exists.mp (processCategory_isSome _ favoritesSpec (by
      unfold wellShaped at h; simp only [Bool.and_eq_true] at h; exact h.1.1.1.2))
    obtain ⟨ph, hh⟩ := Option.isSome_iff_exists.mp (processCategory_isSome _ historySpec (by
      unfold wellShaped at h; simp only [Bool.and_eq_true] at h; exact h.1.1.2))
    obtain ⟨ps, hs⟩ := Option.isSome_iff_exists.mp (processCategory_isSome _ sharedSpec h4)
    obtain ⟨pc, hcc⟩ := Option.isSome_iff_exists.mp (processChat_isSome _ h5)
    simp [parse_data_file, hl, hf, hh, hs, hcc]
  · intro hact hdm
    have hcat : ∀ spec : CategorySpec, spec.sect = "Activity" →
        processCategory (.obj fields) spec = some (0, []) := by
      intro spec hspec
      simp [processCategory, pyIn, hspec, hact]
    simp [parse_data_file, hcat likesSpec rfl, hcat favoritesSpec rfl,
      hcat historySpec rfl, hcat sharedSpec rfl, processChat, pyIn, hdm,
      extract_username_j]

theorem parser_totality_amended_witness :
    (parse_data_file (.obj [])).isSome = true ∧
      (lookupField [] "Activity" = none → lookupField [] "Direct Messages" = none →
        parse_data_file (.obj []) =
          some ⟨⟨0, 0, 0, 0, 0, 0⟩, [], extract_username []⟩) :=
  parser_totality_amended [] (by decide)

/-! ## C7: chat extraction

Support lemmas: a whitespace-free pattern occurs in a string iff it occurs in
one of its `split()` words, and `split()` words are nonempty and
whitespace-free (so `word.strip()` is the word itself). -/

theorem dropWhile_eq_self_of_forall {p : Char → Bool} {l : List Char}
    (h : ∀ c ∈ l, p c = false) : l.dropWhile p = l := by
  cases l with
  | nil => rfl
  | cons c rest => simp [List.dropWhile_cons, h c (List.mem_cons_self c rest)]

theorem pyStrip_eq_self {w : List Char} (h : ∀ c ∈ w, c.isWhitespace = false) :
    pyStrip w = w := by
  unfold pyStrip
  rw [dropWhile_eq_self_of_forall h,
    dropWhile_eq_self_of_forall (fun c hc => h c (List.mem_reverse.mp hc)),
    List.reverse_reverse]

theorem pySplitWsAux_words (s : List Char) :
    ∀ cur, (∀ c ∈ cur, c.isWhitespace = false) →
      ∀ w ∈ pySplitWsAux cur s, w ≠ [] ∧ ∀ c ∈ w, c.isWhitespace = false := by
  induction s with
  | nil =>
    intro cur hcur w hw
    simp only [pySplitWsAux] at hw
    by_cases hc : cur.isEmpty = true
    · simp [hc] at hw
    · rw [if_neg hc] at hw
      simp only [List.mem_singleton] at hw
      subst hw
      refine ⟨?_, fun c hcm => hcur c (List.mem_reverse.mp hcm)⟩
      simp only [ne_eq, List.reverse_eq_nil_iff]
      intro he
      subst he
      exact hc rfl
  | cons c rest ih =>
    intro cur hcur w hw
    simp only [pySplitWsAux] at hw
    by_cases hws : c.isWhitespace = true
    · rw [if_pos hws] at hw
      by_cases hc : cur.isEmpty = true
      · rw [if_pos hc] at hw
        exact ih [] (by simp) w hw
      · rw [if_neg hc] at hw
        rcases List.mem_cons.mp hw with hw | hw
        · subst hw
          refine ⟨?_, fun ch hcm => hcur ch (List.mem_reverse.mp hcm)⟩
          simp only [ne_eq, List.reverse_eq_nil_iff]
          intro he
          subst he
          exact hc rfl
        · exact ih [] (by simp) w hw
    · rw [if_neg hws] at hw
      refine ih (c :: cur) ?_ w hw
      intro ch hch
      rcases List.mem_cons.mp hch with h | h
      · subst h
        simpa using hws
      · exact hcur ch h

theorem isPfx_append_ws (c : Char) (hc : c.isWhitespace = true) (y : List Char) :
    ∀ z pat, (∀ ch ∈ pat, ch.isWhitespace = false) →
      isPfx pat (z ++ c :: y) = isPfx pat z := by
  intro z
  induction z with
  | nil =>
    intro pat hws
    cases pat with
    | nil => simp [isPfx]
    | cons p pr =>
      have hpc : ¬(p = c) := by
        intro e
        have h1 := hws p (List.mem_cons_self p pr)
        rw [e, hc] at h1
        exact absurd h1 (by simp)
      simp [isPfx, hpc]
  | cons z0 zr ih =>
    intro pat hws
    cases pat with
    | nil => simp [isPfx]
    | cons p pr =>
      simp only [List.cons_append, isPfx]
      by_cases hpz : p = z0
      · rw [if_pos hpz, if_pos hpz]
        exact ih pr (fun ch hm => hws ch (List.mem_cons_of_mem p hm))
      · rw [if_neg hpz, if_neg hpz]

theorem pyContains_nil (pat : List Char) (hpat : pat ≠ []) :
    pyContains pat [] = false := by
  cases pat with
  | nil => exact absurd rfl hpat
  | cons p pr => rfl

theorem pyContains_split_ws (pat : List Char) (hpat : pat ≠ [])
    (hws : ∀ ch ∈ pat, ch.isWhitespace = false)
    (c : Char) (hc : c.isWhitespace = true) (y : List Char) :
    ∀ x, pyContains pat (x ++ c :: y) = (pyContains pat x || pyContains pat y) := by
  intro x
  induction x with
  | nil =>
    simp only [List.nil_append]
    rw [pyContains_cons]
    rw [show isPfx pat (c :: y) = isPfx pat [] from isPfx_append_ws c hc y [] pat hws]
    have h1 : isPfx pat [] = false := by
      cases pat with
      | nil => exact absurd rfl hpat
      | cons p pr => rfl
    rw [h1, pyContains_nil pat hpat]
  | cons a x' ih =>
    simp only [List.cons_append]
    rw [pyContains_cons, pyContains_cons pat a x']
    have h2 := isPfx_append_ws c hc y (a :: x') pat hws
    simp only [List.cons_append] at h2
    rw [h2, ih]
    simp [Bool.or_assoc]

theorem splitWsAux_contains (pat : List Char) (hpat : pat ≠ [])
    (hws : ∀ ch ∈ pat, ch.isWhitespace = false) :
    ∀ s cur : List Char,
      ((∃ w ∈ pySplitWsAux cur s, pyContains pat w = true) ↔
        pyContains pat (cur.reverse ++ s) = true) := by
  intro s
  induction s with
  | nil =>
    intro cur
    simp only [pySplitWsAux]
    by_cases hc : cur.isEmpty = true
    · have he : cur = [] := by
        cases cur with
        | nil => rfl
        | cons a l => simp at hc
      subst he
      simp [pyContains_nil pat hpat]
    · rw [if_neg hc]
      simp only [List.mem_singleton, List.append_nil]
      constructor
      · rintro ⟨w, hw, hcw⟩
        subst hw
        exact hcw
      · intro hcw
        exact ⟨cur.reverse, rfl, hcw⟩
  | cons c rest ih =>
    intro cur
    simp only [pySplitWsAux]
    by_cases hcw : c.isWhitespace = true
    · rw [if_pos hcw]
      have hsplit := pyContains_split_ws pat hpat hws c hcw rest cur.reverse
      by_cases hc : cur.isEmpty = true
      · rw [if_pos hc]
        have he : cur = [] := by
          cases cur with
          | nil => rfl
          | cons a l => simp at hc
        subst he
        rw [ih []]
        simp only [List.reverse_nil, List.nil_append] at hsplit ⊢
        rw [hsplit, pyContains_nil pat hpat]
        simp
      · rw [if_neg hc]
        rw [hsplit]
        constructor
        · rintro ⟨w, hw, hcw2⟩
          rcases List.mem_cons.mp hw with hw | hw
          · subst hw
            simp [hcw2]
          · have := (ih []).mp ⟨w, hw, hcw2⟩
            simp only [List.reverse_nil, List.nil_append] at this
            simp [this]
        · intro h
          rcases Bool.or_eq_true _ _ |>.mp h with h | h
          · exact ⟨cur.reverse, List.mem_cons_self _ _, h⟩
          · have := (ih []).mpr (by simpa using h)
            obtain ⟨w, hw, hcw2⟩ := this
            exact ⟨w, List.mem_cons_of_mem _ hw, hcw2⟩
    · rw [if_neg hcw]
      rw [ih (c :: cur)]
      have he : (c :: cur).reverse ++ rest = cur.reverse ++ c :: rest := by
        simp [List.reverse_cons, List.append_assoc]
      rw [he]

theorem contains_iff_word (pat : List Char) (hpat : pat ≠ [])
    (hws : ∀ ch ∈ pat, ch.isWhitespace = false) (s : List Char) :
    pyContains pat s = true ↔ ∃ w ∈ pySplitWs s, pyContains pat w = true := by
  unfold pySplitWs
  rw [splitWsAux_contains pat hpat hws s []]
  simp

theorem chatMessageItem_eq_amended (name : String) (m : Json) :
    chatMessageItem name m = chatItemAmended name m := by
  have hpat : TIKTOK_URL_PATTERN.data ≠ [] := by decide
  have hws : ∀ ch ∈ TIKTOK_URL_PATTERN.data, ch.isWhitespace = false := by decide
  cases m with
  | null => rfl
  | bool b => rfl
  | num n => rfl
  | str s => rfl
  | arr elts => rfl
  | obj fields =>
    simp only [chatMessageItem, chatItemAmended]
    cases hcon : lookupField fields "Content" with
    | none => rfl
    | some content =>
      cases content with
      | null => rfl
      | bool b => rfl
      | num n => rfl
      | arr elts => rfl
      | obj fs2 => rfl
      | str c =>
        dsimp only
        by_cases h : pyContainsS TIKTOK_URL_PATTERN c = true
        · rw [if_pos h]
          have hex : ∃ w ∈ pySplitWs c.data,
              pyContains TIKTOK_URL_PATTERN.data w = true :=
            (contains_iff_word _ hpat hws c.data).mp h
          obtain ⟨w, hwmem, hwc⟩ := hex
          have hsome : ((pySplitWs c.data).find?
              (fun w => pyContains TIKTOK_URL_PATTERN.data w)).isSome :=
            List.find?_isSome.mpr ⟨w, hwmem, hwc⟩
          obtain ⟨w', hw'⟩ := Option.isSome_iff_exists.mp hsome
          rw [hw']
          have hmem := List.mem_of_find?_eq_some hw'
          have hfacts := pySplitWsAux_words c.data [] (by simp) w' hmem
          simp [pyStrip_eq_self hfacts.2]
        · rw [if_neg h]
          have hnone : (pySplitWs c.data).find?
              (fun w => pyContains TIKTOK_URL_PATTERN.data w) = none := by
            rw [List.find?_eq_none]
            intro w hwmem hwc
            exact h ((contains_iff_word _ hpat hws c.data).mpr ⟨w, hwmem, by simpa using hwc⟩)
          rw [hnone]
          rfl

theorem processMessages_eq (name : String) (l : List Json) :
    processMessages name l =
      ((l.filterMap (chatMessageItem name)).length, l.filterMap (chatMessageItem name)) := by
  induction l with
  | nil => rfl
  | cons m rest ih =>
    simp only [processMessages, List.filterMap_cons]
    cases h : chatMessageItem name m <;> simp [h, ih]

theorem chatItemAmended_fields (name : String) (m : Json) (it : WorkItem)
    (h : chatItemAmended name m = some it) :
    it.2.1 = "ChatHistory/" ++ name ∧ it.2.2 = "chat" := by
  cases m with
  | obj fields =>
    cases hcon : lookupField fields "Content" with
    | none => simp [chatItemAmended, hcon] at h
    | some content =>
      cases content with
      | str c =>
        simp only [chatItemAmended, hcon] at h
        obtain ⟨w, hw, he⟩ := Option.map_eq_some'.mp h
        subst he
        exact ⟨rfl, rfl⟩
      | null => simp [chatItemAmended, hcon] at h
      | bool b => simp [chatItemAmended, hcon] at h
      | num n => simp [chatItemAmended, hcon] at h
      | arr elts => simp [chatItemAmended, hcon] at h
      | obj fs2 => simp [chatItemAmended, hcon] at h
  | null => simp [chatItemAmended] at h
  | bool b => simp [chatItemAmended] at h
  | num n => simp [chatItemAmended] at h
  | str s => simp [chatItemAmended] at h
  | arr elts => simp [chatItemAmended] at h

/-- C7 fails on the code: the word scan tests `TIKTOK_URL_PATTERN in word`
(substring containment), not "token beginning with the prefix", so the
message `see:https://www.tiktokv.com/share/video/123 ok` yields a WorkItem
whose url does not begin with the prefix, although no whitespace-delimited
token of the content begins with it. -/
theorem chat_extraction_counterexample :
    parse_data_file (.obj [("Direct Messages", .obj [("Chat History", .obj [("ChatHistory",
        .obj [("Chat History with Alice",
          .arr [.obj [("Content", .str "see:https://www.tiktokv.com/share/video/123 ok")]])])])])]) =
      some ⟨⟨1, 0, 0, 0, 0, 1⟩,
        [(.str "see:https://www.tiktokv.com/share/video/123", "ChatHistory/Alice", "chat")],
        none⟩ ∧
    pyStartsWithS TIKTOK_URL_PATTERN "see:https://www.tiktokv.com/share/video/123" = false ∧
    (pySplitWs "see:https://www.tiktokv.com/share/video/123 ok".data).filter
        (fun w => isPfx TIKTOK_URL_PATTERN.data w) = [] :=
  ⟨rfl, rfl, rfl⟩

/-- C7 amended: for every chat-history key of the expected form and every
message list, the parser produces, per message with a string `Content`
containing the canonical share-url prefix, exactly one WorkItem whose url is
the first whitespace-delimited token of the content *containing* (not
necessarily beginning with) the prefix, taken verbatim, with category `chat`
and a destination folder `ChatHistory/<name>` containing the normalised
correspondent name; messages without such content produce nothing, and the
chat count equals the number of items produced. -/
theorem chat_extraction_amended (k : String) (msgs : List Json)
    (hk : pyStartsWithS "Chat History with " k = true) :
    parse_data_file (chatDoc k msgs) =
      some ⟨⟨(msgs.filterMap (chatItemAmended (chatUsernameOf k))).length, 0, 0, 0, 0,
             (msgs.filterMap (chatItemAmended (chatUsernameOf k))).length⟩,
            msgs.filterMap (chatItemAmended (chatUsernameOf k)), none⟩ ∧
      pyContainsS (chatUsernameOf k) ("ChatHistory/" ++ chatUsernameOf k) = true ∧
      ∀ it ∈ msgs.filterMap (chatItemAmended (chatUsernameOf k)),
        it.2.1 = "ChatHistory/" ++ chatUsernameOf k ∧ it.2.2 = "chat" := by
  refine ⟨?_, ?_, fun it hit => ?_⟩
  · have hmsg : chatMessageItem (chatUsernameOf k) = chatItemAmended (chatUsernameOf k) :=
      funext (chatMessageItem_eq_amended (chatUsernameOf k))
    have hcat : ∀ spec : CategorySpec, spec.sect = "Activity" →
        processCategory (chatDoc k msgs) spec = some (0, []) := by
      intro spec hspec
      simp [processCategory, pyIn, chatDoc, lookupField, hspec]
    have hchat : processChat (chatDoc k msgs) =
        some (processMessages (chatUsernameOf k) msgs) := by
      simp [processChat, pyIn, pyGetItem, pyGet, pyItems, chatDoc, lookupField,
        Json.truthy, processChatEntries, processChatEntry, hk, chatUsernameOf]
    have husername : extract_username_j (chatDoc k msgs) = none := by
      simp [extract_username_j, chatDoc, extract_username, lookupField]
    simp [parse_data_file, hcat likesSpec rfl, hcat favoritesSpec rfl,
      hcat historySpec rfl, hcat sharedSpec rfl, hchat, processMessages_eq, hmsg,
      husername]
  · exact pyContains_mem (chatUsernameOf k) _ "ChatHistory/".data []
      (by simp [String.data_append])
  · obtain ⟨m, _, hm⟩ := List.mem_filterMap.mp hit
    exact chatItemAmended_fields (chatUsernameOf k) m it hm

theorem chat_extraction_amended_witness :
    parse_data_file (chatDoc "Chat History with Alice"
        [.obj [("Content", .str "check this https://www.tiktokv.com/share/video/123 out")]]) =
      some ⟨⟨([.obj [("Content", .str "check this https://www.tiktokv.com/share/video/123 out")]].filterMap
                (chatItemAmended (chatUsernameOf "Chat History with Alice"))).length, 0, 0, 0, 0,
             ([.obj [("Content", .str "check this https://www.tiktokv.com/share/video/123 out")]].filterMap
                (chatItemAmended (chatUsernameOf "Chat History with Alice"))).length⟩,
            [.obj [("Content", .str "check this https://www.tiktokv.com/share/video/123 out")]].filterMap
              (chatItemAmended (chatUsernameOf "Chat History with Alice")), none⟩ ∧
      pyContainsS (chatUsernameOf "Chat History with Alice")
        ("ChatHistory/" ++ chatUsernameOf "Chat History with Alice") = true ∧
      ∀ it ∈ [.obj [("Content", .str "check this https://www.tiktokv.com/share/video/123 out")]].filterMap
          (chatItemAmended (chatUsernameOf "Chat History with Alice")),
        it.2.1 = "ChatHistory/" ++ chatUsernameOf "Chat History with Alice" ∧ it.2.2 = "chat" :=
  chat_extraction_amended "Chat History with Alice"
    [.obj [("Content", .str "check this https://www.tiktokv.com/share/video/123 out")]] (by decide)

theorem categoryEntryItem_eq_priority (spec : CategorySpec) (e : Json) :
    categoryEntryItem spec e = (urlByPriority e).map (fun u => (u, spec.folder, spec.id)) := by
  cases e with
  | obj fields =>
    simp only [categoryEntryItem, urlByPriority, firstUrlField, List.findSome?]
    cases lookupField fields "link" <;> cases lookupField fields "Link" <;>
      cases lookupField fields "shareURL" <;> cases lookupField fields "ShareURL" <;>
      cases lookupField fields "videoURL" <;> cases lookupField fields "VideoURL" <;>
      simp [Option.bind]
  | null => rfl
  | bool b => rfl
  | num n => rfl
  | str s => rfl
  | arr elts => rfl

theorem processCategoryList_eq (spec : CategorySpec) (l : List Json) :
    processCategoryList spec l =
      ((l.filterMap (categoryEntryItem spec)).length, l.filterMap (categoryEntryItem spec)) := by
  induction l with
  | nil => rfl
  | cons v rest ih =>
    simp only [processCategoryList, List.filterMap_cons]
    cases h : categoryEntryItem spec v <;> simp [h, ih]

/-- C8: parsing a likes document yields exactly one WorkItem per entry whose
URL is the first present-and-truthy field in the fixed priority order `link,
Link, shareURL, ShareURL, videoURL, VideoURL`; entries with no such field
are silently excluded from both the count and the list. -/
theorem url_field_priority (entries : List Json) :
    parse_data_file (likesDoc entries) =
      some ⟨⟨(entries.filterMap
                (fun e => (urlByPriority e).map (fun u => (u, "Likes", "likes")))).length,
             (entries.filterMap
                (fun e => (urlByPriority e).map (fun u => (u, "Likes", "likes")))).length,
             0, 0, 0, 0⟩,
            entries.filterMap (fun e => (urlByPriority e).map (fun u => (u, "Likes", "likes"))),
            none⟩ := by
  have hitem : categoryEntryItem likesSpec =
      fun e => (urlByPriority e).map (fun u => (u, "Likes", "likes")) :=
    funext (categoryEntryItem_eq_priority likesSpec)
  have hlikes : processCategory (likesDoc entries) likesSpec =
      some (((entries.filterMap
          (fun e => (urlByPriority e).map (fun u => (u, "Likes", "likes")))).length,
        entries.filterMap (fun e => (urlByPriority e).map (fun u => (u, "Likes", "likes"))))) := by
    have h1 : likesSpec.sect = "Activity" := rfl
    have h2 : likesSpec.name = "Like List" := rfl
    have h3 : likesSpec.list_key = "ItemFavoriteList" := rfl
    cases entries with
    | nil =>
      simp [processCategory, pyIn, pyGetItem, pyGet, likesDoc, lookupField, h1, h2, h3,
        Json.truthy]
    | cons e rest =>
      simp [processCategory, pyIn, pyGetItem, pyGet, pyIter, likesDoc, lookupField,
        h1, h2, h3, Json.truthy, processCategoryList_eq, hitem]
  have hother : ∀ spec : CategorySpec, spec.sect = "Activity" → spec.name ≠ "Like List" →
      processCategory (likesDoc entries) spec = some (0, []) := by
    intro spec hsec hname
    simp [processCategory, pyIn, pyGetItem, pyGet, likesDoc, lookupField, hsec, hname,
      Json.truthy]
  have hchat : processChat (likesDoc entries) = some (0, []) := by
    simp [processChat, pyIn, likesDoc, lookupField]
  have husername : extract_username_j (likesDoc entries) = none := by
    simp [extract_username_j, likesDoc, extract_username, lookupField]
  simp [parse_data_file, hlikes, hother favoritesSpec rfl (by decide),
    hother historySpec rfl (by decide), hother sharedSpec rfl (by decide), hchat,
    husername]

end TikTok
